import Mathlib

/-!
Verification of the ChessGame move-generation engine and position analyzer

Shallow embedding of `src/ChessGame_Backend.py` (class `Chess`, class
`MyChessGame`) and of the winner-prediction tail of
`ChessGameGUI.analyze_position` in `src/Chess_game.py` (the `Chess` class is
duplicated verbatim in both files).

Python strings are modelled as Lean `String`s; Python `ord`/`chr` as
`Char.toNat`/`Char.ofNat`; Python exceptions as an explicit `Except Err`
result.  `str.lower`/`int()` on single characters are modelled for ASCII
input (all piece-kind and position data in this repository is ASCII).
-/

/-- The two exception kinds the embedded code can raise: `ValueError` from
`position_to_coords` / `int()`, and `KeyError` from a failed dict lookup. -/
inductive Err : Type where
  | valueError : Err
  | keyError : Err
deriving DecidableEq, Repr

/-- ASCII uppercase-to-lowercase pairs, modelling Python `str.lower` on the
ASCII range (the only range exercised by this repository's data). -/
def lowerTable : List (Char × Char) :=
  [('A', 'a'), ('B', 'b'), ('C', 'c'), ('D', 'd'), ('E', 'e'), ('F', 'f'),
   ('G', 'g'), ('H', 'h'), ('I', 'i'), ('J', 'j'), ('K', 'k'), ('L', 'l'),
   ('M', 'm'), ('N', 'n'), ('O', 'o'), ('P', 'p'), ('Q', 'q'), ('R', 'r'),
   ('S', 's'), ('T', 't'), ('U', 'u'), ('V', 'v'), ('W', 'w'), ('X', 'x'),
   ('Y', 'y'), ('Z', 'z')]

/-- Python `c.lower()` for a single character (ASCII model). -/
def charLower (c : Char) : Char :=
  match lowerTable.find? (fun p => p.1 == c) with
  | some p => p.2
  | none => c

/-- Python `s.lower()` (ASCII model), as used by `MyChessGame.__init__` and
`Chess.get_piece_moves`. -/
def stringLower (s : String) : String :=
  String.mk (s.data.map charLower)

/-- Python `int(c)` on a one-character string: succeeds exactly on decimal
digits, raising `ValueError` otherwise (ASCII model). -/
def int1 (c : Char) : Option Int :=
  if '0' ≤ c ∧ c ≤ '9' then some ((c.toNat : Int) - ('0'.toNat : Int)) else none

/-- Embeds `Chess.PIECE_VALUES`: the dict literal, as an association list. -/
def PIECE_VALUES : List (String × Int) :=
  [("knight", 3), ("bishop", 3), ("rook", 5), ("queen", 9), ("king", 100)]

/-- Python dict lookup `PIECE_VALUES[k]`: `none` models the `KeyError` case. -/
def pieceValue (k : String) : Option Int :=
  (PIECE_VALUES.find? (fun p => p.1 == k)).map (fun p => p.2)

/-- Embeds `Chess.is_valid_position`: `0 <= row <= 7 and 0 <= col <= 7`. -/
def is_valid_position (row col : Int) : Bool :=
  decide (0 ≤ row ∧ row ≤ 7 ∧ 0 ≤ col ∧ col ≤ 7)

/-- Embeds `Chess.position_to_coords`: raises `ValueError` when the length is not 2;
`col = ord(position[0].lower()) - ord('a')` (never fails);
`row = int(position[1]) - 1` (raises `ValueError` on a non-digit).
Returns `(row, col)`.  Note that no range check is performed on either
coordinate. -/
def position_to_coords (position : String) : Except Err (Int × Int) :=
  match position.data with
  | [c0, c1] =>
    let col : Int := ((charLower c0).toNat : Int) - ('a'.toNat : Int)
    match int1 c1 with
    | some d => Except.ok (d - 1, col)
    | none => Except.error Err.valueError
  | _ => Except.error Err.valueError

/-- Embeds `Chess.coords_to_position`: `chr(ord('a') + col) + str(row + 1)`.
(`chr` is modelled for the in-range arguments this program feeds it.) -/
def coords_to_position (row col : Int) : String :=
  String.mk [Char.ofNat (('a'.toNat : Int) + col).toNat] ++ toString (row + 1)

/-- One direction of a sliding walk: the squares at distance 1..7 along
`(dr, dc)`, kept while in bounds and cut at the first out-of-bounds step
(the `break` in the Python loop). -/
def slide (row col dr dc : Int) : List (Int × Int) :=
  ((List.range' 1 7).map (fun i => (row + dr * (i : Int), col + dc * (i : Int)))).takeWhile
    (fun p => is_valid_position p.1 p.2)

/-- Embeds `Chess._get_rook_moves`: the four orthogonal sliding walks, in source
order. -/
def get_rook_moves (row col : Int) : List (Int × Int) :=
  ([((0 : Int), (1 : Int)), (0, -1), (1, 0), (-1, 0)]).flatMap
    (fun d => slide row col d.1 d.2)

/-- Embeds `Chess._get_bishop_moves`: the four diagonal sliding walks, in source
order. -/
def get_bishop_moves (row col : Int) : List (Int × Int) :=
  ([((1 : Int), (1 : Int)), (1, -1), (-1, 1), (-1, -1)]).flatMap
    (fun d => slide row col d.1 d.2)

/-- Embeds `Chess._get_queen_moves`: rook walk followed by bishop walk. -/
def get_queen_moves (row col : Int) : List (Int × Int) :=
  get_rook_moves row col ++ get_bishop_moves row col

/-- Embeds `Chess._get_knight_moves`: the eight L-offsets, filtered to the board. -/
def get_knight_moves (row col : Int) : List (Int × Int) :=
  (([(-2, -1), (-2, 1), (-1, -2), (-1, 2), (1, -2), (1, 2), (2, -1), (2, 1)] :
      List (Int × Int)).map (fun d => (row + d.1, col + d.2))).filter
    (fun p => is_valid_position p.1 p.2)

/-- Embeds `Chess._get_king_moves`: the eight unit offsets, filtered to the board. -/
def get_king_moves (row col : Int) : List (Int × Int) :=
  (([(-1, -1), (-1, 0), (-1, 1), (0, -1), (0, 1), (1, -1), (1, 0), (1, 1)] :
      List (Int × Int)).map (fun d => (row + d.1, col + d.2))).filter
    (fun p => is_valid_position p.1 p.2)

/-- The straight-line tail of `Chess.get_piece_moves` after coordinate
conversion: dispatch on the (already lowercased) piece type, then
`[coords_to_position(r, c) for r, c in moves if is_valid_position(r, c)]`. -/
def piece_moves_core (pt : String) (row col : Int) : List String :=
  let moves : List (Int × Int) :=
    if pt = "rook" then get_rook_moves row col
    else if pt = "bishop" then get_bishop_moves row col
    else if pt = "queen" then get_queen_moves row col
    else if pt = "knight" then get_knight_moves row col
    else if pt = "king" then get_king_moves row col
    else []
  (moves.filter (fun p => is_valid_position p.1 p.2)).map
    (fun p => coords_to_position p.1 p.2)

/-- Embeds `Chess.get_piece_moves(piece_type, position, color)`: convert the
position (propagating `ValueError`), lowercase the piece type, dispatch.
The `color` parameter is accepted and ignored, as in the source. -/
def get_piece_moves (piece_type position color : String) :
    Except Err (List String) :=
  match position_to_coords position with
  | Except.error e => Except.error e
  | Except.ok (row, col) => Except.ok (piece_moves_core (stringLower piece_type) row col)

/-- Embeds `Chess.can_attack`: membership of `target_pos` in the move list
(Python `in` on a list of strings, literal comparison). -/
def can_attack (piece_type from_pos target_pos color : String) :
    Except Err Bool :=
  match get_piece_moves piece_type from_pos color with
  | Except.error e => Except.error e
  | Except.ok ms => Except.ok (ms.contains target_pos)

/-- The state of `MyChessGame` after `__init__` (all four fields stored
lowercased). -/
structure MyChessGame : Type where
  white_piece : String
  white_pos : String
  black_piece : String
  black_pos : String
deriving DecidableEq, Repr

/-- Embeds `MyChessGame.__init__`: lowercases every argument before storing it. -/
def mkMyChessGame (white_piece white_pos black_piece black_pos : String) :
    MyChessGame :=
  ⟨stringLower white_piece, stringLower white_pos,
   stringLower black_piece, stringLower black_pos⟩

/-- Embeds `MyChessGame.can_white_attack_black`. -/
def can_white_attack_black (g : MyChessGame) : Except Err Bool :=
  can_attack g.white_piece g.white_pos g.black_pos "white"

/-- Embeds `MyChessGame.can_black_attack_white`. -/
def can_black_attack_white (g : MyChessGame) : Except Err Bool :=
  can_attack g.black_piece g.black_pos g.white_pos "black"

/-- Embeds `MyChessGame.determine_winner`, in Python evaluation order: the two
`PIECE_VALUES` lookups (each may raise `KeyError`), then the two attack
tests (each may raise `ValueError`), then the branch chain. -/
def determine_winner (g : MyChessGame) : Except Err String :=
  match pieceValue g.white_piece with
  | none => Except.error Err.keyError
  | some white_value =>
  match pieceValue g.black_piece with
  | none => Except.error Err.keyError
  | some black_value =>
  match can_white_attack_black g with
  | Except.error e => Except.error e
  | Except.ok white_can_attack =>
  match can_black_attack_white g with
  | Except.error e => Except.error e
  | Except.ok black_can_attack =>
  if white_can_attack && !black_can_attack then
    Except.ok ("white " ++ g.white_piece ++ " wins")
  else if black_can_attack && !white_can_attack then
    Except.ok ("black " ++ g.black_piece ++ " wins")
  else if white_value > black_value then
    Except.ok ("white " ++ g.white_piece ++ " wins")
  else if black_value > white_value then
    Except.ok ("black " ++ g.black_piece ++ " wins")
  else
    Except.ok "draw"

/-- The per-square record `{'piece': ..., 'color': ...}` stored per square in
`ChessGameGUI.board_pieces`. -/
structure PieceInfo : Type where
  piece : String
  color : String
deriving DecidableEq, Repr

/-- The items of the `board_pieces` dict: `(row, col)` keys (kept as `Int`
to match the arithmetic) with their `PieceInfo`, in iteration order. -/
abbrev Board : Type := List ((Int × Int) × PieceInfo)

/-- The list `pieces_by_color[c]` built by `ChessGameGUI.analyze_position`:
each occupant of colour `c` as `(piece, position)` with
`position = coords_to_position(row, col)`, in board order. -/
def piecesOfColor (board : Board) (c : String) : List (String × String) :=
  (board.filter (fun e => e.2.color == c)).map
    (fun e => (e.2.piece, coords_to_position e.1.1 e.1.2))

/-- The nested attack-counting loops of `analyze_position`: the number of
(attacker, defender) pairs for which `can_attack` holds, raising whatever
`can_attack` raises (on the first failing pair). -/
def countAttacks (attackers defenders : List (String × String))
    (color : String) : Except Err Nat :=
  attackers.foldlM (fun acc a =>
    defenders.foldlM (fun acc2 b =>
      match can_attack a.1 a.2 b.2 color with
      | Except.error e => Except.error e
      | Except.ok r => Except.ok (if r then acc2 + 1 else acc2)) acc) 0

/-- Embeds `sum(PIECE_VALUES[p['piece']] for p in pieces)`: raises `KeyError` on
the first unknown kind. -/
def materialOf (pieces : List (String × String)) : Except Err Int :=
  pieces.foldlM (fun acc p =>
    match pieceValue p.1 with
    | some v => Except.ok (acc + v)
    | none => Except.error Err.keyError) 0

/-- The verdict printed by the `WINNER PREDICTION` section. -/
inductive Prediction : Type where
  | whiteWins : Prediction
  | blackWins : Prediction
  | roughlyEqual : Prediction
deriving DecidableEq, Repr

/-- The decision core of `ChessGameGUI.analyze_position`: `none` models the
early `return` behind the "place at least 2 pieces" dialog; a colour other
than white/black models the `KeyError` from `pieces_by_color[...]`; then
the attack counts, the material sums, and the final branch chain
`white_value > black_value and white_attacks >= black_attacks` /
`black_value > white_value and black_attacks >= white_attacks` / equal. -/
def analyze_prediction (board : Board) : Except Err (Option Prediction) :=
  if board.length < 2 then Except.ok none
  else if !(board.all (fun e => e.2.color == "white" || e.2.color == "black")) then
    Except.error Err.keyError
  else
  match countAttacks (piecesOfColor board "white") (piecesOfColor board "black") "white" with
  | Except.error e => Except.error e
  | Except.ok white_attacks =>
  match countAttacks (piecesOfColor board "black") (piecesOfColor board "white") "black" with
  | Except.error e => Except.error e
  | Except.ok black_attacks =>
  match materialOf (piecesOfColor board "white") with
  | Except.error e => Except.error e
  | Except.ok white_value =>
  match materialOf (piecesOfColor board "black") with
  | Except.error e => Except.error e
  | Except.ok black_value =>
  if white_value > black_value ∧ white_attacks ≥ black_attacks then
    Except.ok (some Prediction.whiteWins)
  else if black_value > white_value ∧ black_attacks ≥ white_attacks then
    Except.ok (some Prediction.blackWins)
  else
    Except.ok (some Prediction.roughlyEqual)

/-! Helper instances and lemmas shared by the claim theorems. -/

deriving instance DecidableEq for Except

/-- A lowercased character is a fixed point of `charLower` (the table's
values never occur among its keys). -/
lemma charLower_idem (c : Char) : charLower (charLower c) = charLower c := by
  have htab : ∀ p ∈ lowerTable, charLower p.2 = p.2 := by decide
  cases hf : lowerTable.find? (fun p => p.1 == c) with
  | none =>
    have hc : charLower c = c := by rw [charLower, hf]
    rw [hc, hc]
  | some p =>
    have hc : charLower c = p.2 := by rw [charLower, hf]
    rw [hc]
    exact htab p (List.mem_of_find?_eq_some hf)

/-- Lowercasing a string twice equals lowercasing it once. -/
lemma stringLower_idem (s : String) : stringLower (stringLower s) = stringLower s := by
  simp [stringLower, List.map_map, Function.comp_def, charLower_idem]

/-- Any valid board coordinate pair comes from a pair of `Fin 8` indices. -/
lemma valid_int_destruct (row col : Int) (h : is_valid_position row col = true) :
    ∃ i j : Fin 8, row = ((i : Nat) : Int) ∧ col = ((j : Nat) : Int) := by
  have h4 : 0 ≤ row ∧ row ≤ 7 ∧ 0 ≤ col ∧ col ≤ 7 := by
    simpa [is_valid_position] using h
  have hr : row.toNat < 8 := by omega
  have hc : col.toNat < 8 := by omega
  refine ⟨⟨row.toNat, hr⟩, ⟨col.toNat, hc⟩, ?_, ?_⟩ <;>
    simp only [Fin.val_mk] <;> omega

/-- Checked on all 64 squares: converting a square to algebraic notation and
back returns the same coordinates. -/
lemma roundtrip_fin :
    ∀ i j : Fin 8,
      position_to_coords (coords_to_position ((i : Nat) : Int) ((j : Nat) : Int)) =
        Except.ok (((i : Nat) : Int), ((j : Nat) : Int)) := by decide

/-- Round trip for every valid square, over `Int` coordinates. -/
lemma pos_coords_roundtrip (row col : Int) (h : is_valid_position row col = true) :
    position_to_coords (coords_to_position row col) = Except.ok (row, col) := by
  obtain ⟨i, j, hi, hj⟩ := valid_int_destruct row col h
  subst hi; subst hj
  exact roundtrip_fin i j

/-- A piece type outside the five dispatch branches produces the empty move
list. -/
lemma piece_moves_core_unsupported (pt : String) (row col : Int)
    (h1 : pt ≠ "rook") (h2 : pt ≠ "bishop") (h3 : pt ≠ "queen")
    (h4 : pt ≠ "knight") (h5 : pt ≠ "king") :
    piece_moves_core pt row col = [] := by
  simp [piece_moves_core, h1, h2, h3, h4, h5]

/-- A key missing from `PIECE_VALUES` is none of the five supported kinds. -/
lemma pieceValue_none_spec (k : String) (h : pieceValue k = none) :
    k ≠ "knight" ∧ k ≠ "bishop" ∧ k ≠ "rook" ∧ k ≠ "queen" ∧ k ≠ "king" := by
  refine ⟨?_, ?_, ?_, ?_, ?_⟩ <;> rintro rfl <;> exact absurd h (by decide)

/-! Claim C2: which strings the conversion accepts. -/

/-- C2 (counterexample): the string `"i9"` is malformed per the claim (file
letter outside a-h, rank outside 1-8), yet `position_to_coords` accepts it
and returns the off-board square `(8, 8)`. -/
theorem position_to_coords_accepts_malformed :
    position_to_coords "i9" = Except.ok (8, 8) ∧
    "i9".length = 2 ∧
    is_valid_position 8 8 = false := by decide

/-- C2 (amended): `position_to_coords` accepts a string exactly when it has
length 2 and its second character is a decimal digit; the file letter and
the rank range are never validated, so accepted strings may denote
off-board coordinates. -/
theorem position_to_coords_accepts_iff (p : String) :
    (∃ rc, position_to_coords p = Except.ok rc) ↔
      (∃ c0 c1, p.data = [c0, c1] ∧ '0' ≤ c1 ∧ c1 ≤ '9') := by
  obtain ⟨l⟩ := p
  rcases l with _ | ⟨c0, _ | ⟨c1, _ | ⟨c2, t⟩⟩⟩
  · simp [position_to_coords]
  · simp [position_to_coords]
  · constructor
    · rintro ⟨rc, h⟩
      simp only [position_to_coords, int1] at h
      by_cases hd : '0' ≤ c1 ∧ c1 ≤ '9'
      · exact ⟨c0, c1, rfl, hd.1, hd.2⟩
      · rw [if_neg hd] at h
        cases h
    · rintro ⟨c0', c1', heq, hd1, hd2⟩
      simp only [String.data] at heq
      cases heq
      simp only [position_to_coords, int1, if_pos (And.intro hd1 hd2)]
      exact ⟨_, rfl⟩
  · simp [position_to_coords]

/-- C2 (witness): the amended acceptance condition applied at `"e4"`. -/
theorem position_to_coords_accepts_iff_witness :
    ∃ rc, position_to_coords "e4" = Except.ok rc :=
  (position_to_coords_accepts_iff "e4").mpr ⟨'e', '4', by decide, by decide, by decide⟩

/-! Claim C3: the two conversions are mutually inverse on valid data. -/

/-- The file letters the spec admits: a-h, case-insensitively. -/
def fileLetters : List Char :=
  ['a', 'b', 'c', 'd', 'e', 'f', 'g', 'h', 'A', 'B', 'C', 'D', 'E', 'F', 'G', 'H']

/-- The rank digits the spec admits: 1-8. -/
def rankDigits : List Char := ['1', '2', '3', '4', '5', '6', '7', '8']

/-- The spec's notion of a well-formed algebraic position string: exactly
two characters, a file letter a-h (case-insensitive) then a rank digit
1-8.  Used only to state the domain of the round-trip property. -/
def validAlgebraic (p : String) : Bool :=
  match p.data with
  | [c0, c1] => fileLetters.contains c0 && rankDigits.contains c1
  | _ => false

/-- Checked on all 128 well-formed strings: parsing yields a valid square
which prints back as the lowercased input. -/
lemma algebraic_roundtrip_aux :
    ∀ c0 ∈ fileLetters, ∀ c1 ∈ rankDigits,
      (match position_to_coords (String.mk [c0, c1]) with
       | Except.ok rc =>
         is_valid_position rc.1 rc.2 &&
           (coords_to_position rc.1 rc.2 == stringLower (String.mk [c0, c1]))
       | Except.error e => false) = true := by decide

/-- C3: for every valid square, converting to algebraic notation and back
is the identity; for every well-formed algebraic string, parsing succeeds,
lands on a valid square, and printing that square returns the lowercased
input.  Together the two maps are mutually inverse bijections between the
64 valid squares and the 64 lowercase well-formed strings. -/
theorem conversion_roundtrip :
    (∀ row col : Int, is_valid_position row col = true →
      position_to_coords (coords_to_position row col) = Except.ok (row, col)) ∧
    (∀ p : String, validAlgebraic p = true →
      ∃ row col : Int, position_to_coords p = Except.ok (row, col) ∧
        is_valid_position row col = true ∧
        coords_to_position row col = stringLower p) := by
  constructor
  · exact pos_coords_roundtrip
  · intro p hp
    obtain ⟨l⟩ := p
    rcases l with _ | ⟨c0, _ | ⟨c1, _ | ⟨c2, t⟩⟩⟩
    · exact absurd hp (by decide)
    · simp [validAlgebraic] at hp
    · simp only [validAlgebraic, Bool.and_eq_true] at hp
      have h0 : c0 ∈ fileLetters := List.mem_of_elem_eq_true hp.1
      have h1 : c1 ∈ rankDigits := List.mem_of_elem_eq_true hp.2
      have haux := algebraic_roundtrip_aux c0 h0 c1 h1
      cases hpc : position_to_coords (String.mk [c0, c1]) with
      | ok rc =>
        obtain ⟨r, c⟩ := rc
        rw [hpc] at haux
        simp only [Bool.and_eq_true, beq_iff_eq] at haux
        exact ⟨r, c, rfl, haux.1, haux.2⟩
      | error e =>
        rw [hpc] at haux
        cases haux
    · simp [validAlgebraic] at hp

/-- C3 (witness): the round trip evaluated at the square `(3, 4)` and at
the uppercase string `"E4"`. -/
theorem conversion_roundtrip_witness :
    position_to_coords (coords_to_position 3 4) = Except.ok (3, 4) ∧
    ∃ row col : Int, position_to_coords "E4" = Except.ok (row, col) ∧
      is_valid_position row col = true ∧
      coords_to_position row col = stringLower "E4" :=
  ⟨conversion_roundtrip.1 3 4 (by decide), conversion_roundtrip.2 "E4" (by decide)⟩

/-! Claim C5: the rook move list has exactly 14 entries from every square. -/

/-- Checked on all 64 squares: the rook move list has 14 entries. -/
lemma rook_len_fin :
    ∀ i j : Fin 8,
      (piece_moves_core "rook" ((i : Nat) : Int) ((j : Nat) : Int)).length = 14 := by
  decide

/-- C5: from every valid square, `get_piece_moves` for a rook returns a
list of exactly 14 positions (7 along the rank plus 7 along the file),
independently of the square. -/
theorem rook_move_count (row col : Int) (color : String)
    (h : is_valid_position row col = true) :
    get_piece_moves "rook" (coords_to_position row col) color =
      Except.ok (piece_moves_core "rook" row col) ∧
    (piece_moves_core "rook" row col).length = 14 := by
  constructor
  · unfold get_piece_moves
    rw [pos_coords_roundtrip row col h]
    have hl : stringLower "rook" = "rook" := by decide
    rw [hl]
  · obtain ⟨i, j, hi, hj⟩ := valid_int_destruct row col h
    subst hi; subst hj
    exact rook_len_fin i j

/-- C5 (witness): the rook count evaluated at a1 (the corner `(0, 0)`) and
at d4 (the central square `(3, 3)`). -/
theorem rook_move_count_witness :
    (piece_moves_core "rook" 0 0).length = 14 ∧
    (piece_moves_core "rook" 3 3).length = 14 ∧
    get_piece_moves "rook" (coords_to_position 0 0) "white" =
      Except.ok (piece_moves_core "rook" 0 0) :=
  ⟨(rook_move_count 0 0 "white" (by decide)).2,
   (rook_move_count 3 3 "white" (by decide)).2,
   (rook_move_count 0 0 "white" (by decide)).1⟩

/-! Claim C6: unsupported piece kinds yield the empty list, not an error. -/

/-- C6: for a piece-type string whose lowercasing is none of the five
supported kinds, `get_piece_moves` returns the empty list without raising,
for every position string it can parse at all (in particular for every
valid square). -/
theorem unsupported_kind_empty (pt pos color : String) (r c : Int)
    (hpt : stringLower pt ∉ (["rook", "bishop", "queen", "knight", "king"] : List String))
    (hpos : position_to_coords pos = Except.ok (r, c)) :
    get_piece_moves pt pos color = Except.ok [] := by
  simp only [List.mem_cons, List.not_mem_nil, or_false, not_or] at hpt
  obtain ⟨h1, h2, h3, h4, h5⟩ := hpt
  unfold get_piece_moves
  rw [hpos]
  show Except.ok (piece_moves_core (stringLower pt) r c) = Except.ok []
  rw [piece_moves_core_unsupported _ _ _ h1 h2 h3 h4 h5]

/-- C6 (witness): a pawn at e4 yields the empty move list. -/
theorem unsupported_kind_empty_witness :
    get_piece_moves "pawn" "e4" "white" = Except.ok [] :=
  unsupported_kind_empty "pawn" "e4" "white" 3 4 (by decide) (by decide)

/-! Claim C7: the colour parameter has no influence on the result. -/

/-- C7: `get_piece_moves` and `can_attack` return identical results for any
two colour arguments (in particular for white versus black): the parameter
is carried but never read. -/
theorem color_has_no_influence (pt pos tgt c1 c2 : String) :
    get_piece_moves pt pos c1 = get_piece_moves pt pos c2 ∧
    can_attack pt pos tgt c1 = can_attack pt pos tgt c2 :=
  ⟨rfl, rfl⟩

/-! Claim C1: the two-piece verdict precedence. -/

/-- C1: for a two-piece game whose piece values resolve (the five supported
kinds) and whose attack tests evaluate (valid squares), `determine_winner`
follows the claimed precedence: an asymmetric attacker wins regardless of
material; otherwise the strictly higher material value wins; otherwise the
result is a draw. -/
theorem determine_winner_precedence (g : MyChessGame) (wv bv : Int) (wAtt bAtt : Bool)
    (hwv : pieceValue g.white_piece = some wv)
    (hbv : pieceValue g.black_piece = some bv)
    (hwa : can_white_attack_black g = Except.ok wAtt)
    (hba : can_black_attack_white g = Except.ok bAtt) :
    determine_winner g =
      Except.ok
        (if wAtt = true ∧ bAtt = false then "white " ++ g.white_piece ++ " wins"
         else if bAtt = true ∧ wAtt = false then "black " ++ g.black_piece ++ " wins"
         else if bv < wv then "white " ++ g.white_piece ++ " wins"
         else if wv < bv then "black " ++ g.black_piece ++ " wins"
         else "draw") := by
  unfold determine_winner
  rw [hwv, hbv, hwa, hba]
  cases wAtt <;> cases bAtt <;> simp [gt_iff_lt] <;> split_ifs <;> rfl

/-- C1 (witness): the spec's seed example, a white queen at e4 against a
black knight at f6: only the knight attacks, so black wins despite the
queen's higher value. -/
theorem determine_winner_precedence_witness :
    determine_winner (mkMyChessGame "Queen" "e4" "Knight" "f6") =
      Except.ok "black knight wins" :=
  (determine_winner_precedence (mkMyChessGame "Queen" "e4" "Knight" "f6")
      9 3 false true (by decide) (by decide) (by decide) (by decide)).trans (by decide)

/-! Claim C8: case handling of algebraic position strings. -/

/-- C8 (counterexample): the target string is compared literally, so an
uppercase target file letter is not matched: a rook on a1 attacks a2 but
reportedly not A2. -/
theorem can_attack_target_case_sensitive :
    can_attack "rook" "a1" "a2" "white" = Except.ok true ∧
    can_attack "rook" "a1" "A2" "white" = Except.ok false := by decide

/-- C8 (amended): `can_attack` is case-insensitive in the file letter of
the from position only — lowercasing the first character of a two-character
from string never changes the result; the target string is matched
literally against the lowercase move list (see the counterexample). -/
theorem can_attack_from_case_insensitive (pt : String) (c0 c1 : Char) (tgt color : String) :
    can_attack pt (String.mk [charLower c0, c1]) tgt color =
      can_attack pt (String.mk [c0, c1]) tgt color := by
  simp only [can_attack, get_piece_moves, position_to_coords, charLower_idem]

/-! Claim C9: unknown piece kinds make `determine_winner` raise `KeyError`. -/

/-- C9: if either stored piece kind is missing from `PIECE_VALUES` (for
example a pawn), `determine_winner` raises `KeyError` — the value lookups
precede the attack evaluation, so this happens regardless of the position
strings — even though the geometry engine itself treats any such kind
leniently as having no moves. -/
theorem unknown_kind_keyerror (wp wpos bp bpos : String)
    (h : pieceValue (stringLower wp) = none ∨ pieceValue (stringLower bp) = none) :
    determine_winner (mkMyChessGame wp wpos bp bpos) = Except.error Err.keyError ∧
    ∀ pt pos color : String, ∀ r c : Int, pieceValue (stringLower pt) = none →
      position_to_coords pos = Except.ok (r, c) →
      get_piece_moves pt pos color = Except.ok [] := by
  constructor
  · show determine_winner
      ⟨stringLower wp, stringLower wpos, stringLower bp, stringLower bpos⟩ =
        Except.error Err.keyError
    unfold determine_winner
    rcases h with h | h
    · rw [h]
    · cases hw : pieceValue (stringLower wp) with
      | none => rfl
      | some v => rw [h]
  · intro pt pos color r c hpt hpos
    obtain ⟨n1, n2, n3, n4, n5⟩ := pieceValue_none_spec _ hpt
    unfold get_piece_moves
    rw [hpos]
    show Except.ok (piece_moves_core (stringLower pt) r c) = Except.ok []
    rw [piece_moves_core_unsupported _ _ _ n3 n2 n4 n1 n5]

/-- C9 (witness): a pawn against a rook raises `KeyError`, and the pawn's
move list at e4 is nevertheless empty. -/
theorem unknown_kind_keyerror_witness :
    determine_winner (mkMyChessGame "Pawn" "e4" "Rook" "a1") =
      Except.error Err.keyError :=
  (unknown_kind_keyerror "Pawn" "e4" "Rook" "a1" (Or.inl (by decide))).1

/-! Claim C10: invariants of every generated move list. -/

/-- Bundled coordinate-level invariants of a move list: no duplicates, the
starting square absent, every entry on the board. -/
def coordsCheck (mv : List (Int × Int)) (s : Int × Int) : Bool :=
  decide mv.Nodup && !(mv.contains s) &&
    mv.all (fun p => is_valid_position p.1 p.2)

/-- Printing is injective on valid squares, as a consequence of the round
trip. -/
lemma coords_to_position_inj (a b : Int × Int)
    (ha : is_valid_position a.1 a.2 = true) (hb : is_valid_position b.1 b.2 = true)
    (h : coords_to_position a.1 a.2 = coords_to_position b.1 b.2) : a = b := by
  rcases a with ⟨a1, a2⟩
  rcases b with ⟨b1, b2⟩
  have h1 := pos_coords_roundtrip a1 a2 ha
  have h2 := pos_coords_roundtrip b1 b2 hb
  rw [h] at h1
  rw [h2] at h1
  injection h1 with h3
  exact h3.symm

/-- Lifts the coordinate-level invariants through
`coords_to_position`-printing to the string move list. -/
lemma movesInvariants_of_coordsCheck (mv : List (Int × Int)) (row col : Int)
    (hv : is_valid_position row col = true)
    (hchk : coordsCheck mv (row, col) = true) :
    (mv.map (fun p => coords_to_position p.1 p.2)).Nodup ∧
    coords_to_position row col ∉ mv.map (fun p => coords_to_position p.1 p.2) ∧
    ∀ m ∈ mv.map (fun p => coords_to_position p.1 p.2),
      ∃ r c : Int, position_to_coords m = Except.ok (r, c) ∧
        is_valid_position r c = true := by
  simp only [coordsCheck, Bool.and_eq_true, Bool.not_eq_true',
    decide_eq_true_eq, List.all_eq_true] at hchk
  obtain ⟨⟨hnd, hmem⟩, hall⟩ := hchk
  have hnotmem : (row, col) ∉ mv := by
    intro hin
    have := List.elem_eq_true_of_mem hin
    simp only [List.contains] at hmem
    rw [hmem] at this
    cases this
  refine ⟨?_, ?_, ?_⟩
  · exact List.Nodup.map_on
      (fun x hx y hy hxy => coords_to_position_inj x y (hall x hx) (hall y hy) hxy) hnd
  · intro hin
    obtain ⟨p, hp, hpe⟩ := List.mem_map.mp hin
    exact hnotmem
      (coords_to_position_inj p (row, col) (hall p hp) hv hpe ▸ hp)
  · intro m hm
    obtain ⟨p, hp, hpe⟩ := List.mem_map.mp hm
    exact ⟨p.1, p.2, hpe ▸ pos_coords_roundtrip p.1 p.2 (hall p hp), hall p hp⟩

/-- The rook branch of `piece_moves_core`, spelled out. -/
lemma piece_moves_core_rook (row col : Int) :
    piece_moves_core "rook" row col =
      ((get_rook_moves row col).filter (fun p => is_valid_position p.1 p.2)).map
        (fun p => coords_to_position p.1 p.2) := rfl

/-- The bishop branch of `piece_moves_core`, spelled out. -/
lemma piece_moves_core_bishop (row col : Int) :
    piece_moves_core "bishop" row col =
      ((get_bishop_moves row col).filter (fun p => is_valid_position p.1 p.2)).map
        (fun p => coords_to_position p.1 p.2) := rfl

/-- The queen branch of `piece_moves_core`, spelled out. -/
lemma piece_moves_core_queen (row col : Int) :
    piece_moves_core "queen" row col =
      ((get_queen_moves row col).filter (fun p => is_valid_position p.1 p.2)).map
        (fun p => coords_to_position p.1 p.2) := rfl

/-- The knight branch of `piece_moves_core`, spelled out. -/
lemma piece_moves_core_knight (row col : Int) :
    piece_moves_core "knight" row col =
      ((get_knight_moves row col).filter (fun p => is_valid_position p.1 p.2)).map
        (fun p => coords_to_position p.1 p.2) := rfl

/-- The king branch of `piece_moves_core`, spelled out. -/
lemma piece_moves_core_king (row col : Int) :
    piece_moves_core "king" row col =
      ((get_king_moves row col).filter (fun p => is_valid_position p.1 p.2)).map
        (fun p => coords_to_position p.1 p.2) := rfl

set_option maxHeartbeats 1000000 in
/-- Checked on all 64 squares: the rook coordinate list satisfies the
invariants. -/
lemma coordsCheck_rook :
    ∀ i j : Fin 8,
      coordsCheck ((get_rook_moves ((i : Nat) : Int) ((j : Nat) : Int)).filter
          (fun p => is_valid_position p.1 p.2))
        (((i : Nat) : Int), ((j : Nat) : Int)) = true := by decide

set_option maxHeartbeats 1000000 in
/-- Checked on all 64 squares: the bishop coordinate list satisfies the
invariants. -/
lemma coordsCheck_bishop :
    ∀ i j : Fin 8,
      coordsCheck ((get_bishop_moves ((i : Nat) : Int) ((j : Nat) : Int)).filter
          (fun p => is_valid_position p.1 p.2))
        (((i : Nat) : Int), ((j : Nat) : Int)) = true := by decide

set_option maxHeartbeats 4000000 in
/-- Checked on all 64 squares: the queen coordinate list satisfies the
invariants. -/
lemma coordsCheck_queen :
    ∀ i j : Fin 8,
      coordsCheck ((get_queen_moves ((i : Nat) : Int) ((j : Nat) : Int)).filter
          (fun p => is_valid_position p.1 p.2))
        (((i : Nat) : Int), ((j : Nat) : Int)) = true := by decide

set_option maxHeartbeats 1000000 in
/-- Checked on all 64 squares: the knight coordinate list satisfies the
invariants. -/
lemma coordsCheck_knight :
    ∀ i j : Fin 8,
      coordsCheck ((get_knight_moves ((i : Nat) : Int) ((j : Nat) : Int)).filter
          (fun p => is_valid_position p.1 p.2))
        (((i : Nat) : Int), ((j : Nat) : Int)) = true := by decide

set_option maxHeartbeats 1000000 in
/-- Checked on all 64 squares: the king coordinate list satisfies the
invariants. -/
lemma coordsCheck_king :
    ∀ i j : Fin 8,
      coordsCheck ((get_king_moves ((i : Nat) : Int) ((j : Nat) : Int)).filter
          (fun p => is_valid_position p.1 p.2))
        (((i : Nat) : Int), ((j : Nat) : Int)) = true := by decide

/-- C10: for every piece-type string and every valid square, the move list
returned by `get_piece_moves` consists of positions denoting valid on-board
squares, contains no duplicates, and never contains the starting square. -/
theorem piece_moves_invariants (pt color : String) (row col : Int)
    (h : is_valid_position row col = true) :
    get_piece_moves pt (coords_to_position row col) color =
      Except.ok (piece_moves_core (stringLower pt) row col) ∧
    (piece_moves_core (stringLower pt) row col).Nodup ∧
    coords_to_position row col ∉ piece_moves_core (stringLower pt) row col ∧
    ∀ m ∈ piece_moves_core (stringLower pt) row col,
      ∃ r c : Int, position_to_coords m = Except.ok (r, c) ∧
        is_valid_position r c = true := by
  have hfirst : get_piece_moves pt (coords_to_position row col) color =
      Except.ok (piece_moves_core (stringLower pt) row col) := by
    unfold get_piece_moves
    rw [pos_coords_roundtrip row col h]
  refine ⟨hfirst, ?_⟩
  obtain ⟨i, j, hi, hj⟩ := valid_int_destruct row col h
  subst hi; subst hj
  by_cases h1 : stringLower pt = "rook"
  · rw [h1, piece_moves_core_rook]
    exact movesInvariants_of_coordsCheck _ _ _ h (coordsCheck_rook i j)
  by_cases h2 : stringLower pt = "bishop"
  · rw [h2, piece_moves_core_bishop]
    exact movesInvariants_of_coordsCheck _ _ _ h (coordsCheck_bishop i j)
  by_cases h3 : stringLower pt = "queen"
  · rw [h3, piece_moves_core_queen]
    exact movesInvariants_of_coordsCheck _ _ _ h (coordsCheck_queen i j)
  by_cases h4 : stringLower pt = "knight"
  · rw [h4, piece_moves_core_knight]
    exact movesInvariants_of_coordsCheck _ _ _ h (coordsCheck_knight i j)
  by_cases h5 : stringLower pt = "king"
  · rw [h5, piece_moves_core_king]
    exact movesInvariants_of_coordsCheck _ _ _ h (coordsCheck_king i j)
  rw [piece_moves_core_unsupported _ _ _ h1 h2 h3 h4 h5]
  simp

/-- C10 (witness): the invariants evaluated for a knight at d4. -/
theorem piece_moves_invariants_witness :
    (piece_moves_core (stringLower "knight") 3 3).Nodup ∧
    coords_to_position 3 3 ∉ piece_moves_core (stringLower "knight") 3 3 :=
  ⟨(piece_moves_invariants "knight" "white" 3 3 (by decide)).2.1,
   (piece_moves_invariants "knight" "white" 3 3 (by decide)).2.2.1⟩

/-! Claim C4: the multi-piece winner prediction. -/

/-- A four-piece position: white knight d4 and king a1, black bishop b5 and
king h8.  Material is equal (103 each); the knight attacks b5 and no black
piece attacks any white piece. -/
def fourPieceBoard : Board :=
  [((3, 3), ⟨"knight", "white"⟩), ((0, 0), ⟨"king", "white"⟩),
   ((4, 1), ⟨"bishop", "black"⟩), ((7, 7), ⟨"king", "black"⟩)]

/-- C4 (counterexample): on `fourPieceBoard` white has strictly more attack
pairs (1 versus 0) and equal total material (103 each), so the claim says
the prediction favours white; the code returns "roughly equal" because its
first conjunct compares material, not attacks. -/
theorem analyze_prediction_ignores_attack_lead :
    analyze_prediction fourPieceBoard = Except.ok (some Prediction.roughlyEqual) ∧
    countAttacks (piecesOfColor fourPieceBoard "white")
      (piecesOfColor fourPieceBoard "black") "white" = Except.ok 1 ∧
    countAttacks (piecesOfColor fourPieceBoard "black")
      (piecesOfColor fourPieceBoard "white") "black" = Except.ok 0 ∧
    materialOf (piecesOfColor fourPieceBoard "white") = Except.ok 103 ∧
    materialOf (piecesOfColor fourPieceBoard "black") = Except.ok 103 ∧
    fourPieceBoard.length = 4 := by decide

/-- C4 (amended): for every analyzable position of at least two pieces, the
prediction favours a side exactly when that side has strictly greater total
material value and at least as many cross-side attack pairs in its favour;
otherwise the result is "roughly equal". -/
theorem analyze_prediction_semantics (board : Board) (wAtt bAtt : Nat) (wv bv : Int)
    (hlen : 2 ≤ board.length)
    (hcol : board.all (fun e => e.2.color == "white" || e.2.color == "black") = true)
    (hwa : countAttacks (piecesOfColor board "white")
      (piecesOfColor board "black") "white" = Except.ok wAtt)
    (hba : countAttacks (piecesOfColor board "black")
      (piecesOfColor board "white") "black" = Except.ok bAtt)
    (hwv : materialOf (piecesOfColor board "white") = Except.ok wv)
    (hbv : materialOf (piecesOfColor board "black") = Except.ok bv) :
    (analyze_prediction board = Except.ok (some Prediction.whiteWins) ↔
      bv < wv ∧ bAtt ≤ wAtt) ∧
    (analyze_prediction board = Except.ok (some Prediction.blackWins) ↔
      wv < bv ∧ wAtt ≤ bAtt) ∧
    (analyze_prediction board = Except.ok (some Prediction.roughlyEqual) ↔
      ¬(bv < wv ∧ bAtt ≤ wAtt) ∧ ¬(wv < bv ∧ wAtt ≤ bAtt)) := by
  have hne : ¬ board.length < 2 := by omega
  have hstep : analyze_prediction board =
      (if wv > bv ∧ wAtt ≥ bAtt then Except.ok (some Prediction.whiteWins)
       else if bv > wv ∧ bAtt ≥ wAtt then Except.ok (some Prediction.blackWins)
       else Except.ok (some Prediction.roughlyEqual)) := by
    unfold analyze_prediction
    rw [if_neg hne]
    simp only [hcol, Bool.not_true, Bool.false_eq_true, if_false, hwa, hba, hwv, hbv]
  rw [hstep]
  refine ⟨?_, ?_, ?_⟩ <;> split_ifs with hA hB <;> simp <;> omega

/-- C4 (witness): the amended semantics evaluated on a white queen at a1
against a black knight at h8: the queen outweighs the knight and attacks
it, so the prediction favours white. -/
theorem analyze_prediction_semantics_witness :
    analyze_prediction [((0, 0), ⟨"queen", "white"⟩), ((7, 7), ⟨"knight", "black"⟩)] =
      Except.ok (some Prediction.whiteWins) :=
  ((analyze_prediction_semantics
      [((0, 0), ⟨"queen", "white"⟩), ((7, 7), ⟨"knight", "black"⟩)] 1 0 9 3
      (by decide) (by decide) (by decide) (by decide) (by decide) (by decide)).1).mpr
    (by decide)
